import Mathlib

/-!
# Catalog service: identifiers, version resolution and registry lookups

A shallow embedding of `service/utils.go`, `model/catalog.go` and
`model/template.go`, followed by the properties of the identifier generator,
the installable and upgrade link maps, the default version identifier and the
two registry lookups.

Go strings are embedded as `String`, Go maps from string to string as
functions `String → Option String`, slices as lists.
-/

set_option autoImplicit false
set_option linter.dupNamespace false

namespace CatalogService

/-! ## Formatting (`fmt.Sprintf`, the verbs `%s` and `%d`) -/

/-- An operand of `Sprintf`: a Go string or a Go integer. -/
inductive FmtArg where
  | str (s : String)
  | int (i : Int)

/-- Rendering of one operand under a verb: `%s` prints a string operand as it
is, `%d` prints an integer operand in decimal. Any other pairing is a bad verb
and is printed behind a `%!` marker. -/
def fmtVerb (v : Char) (a : FmtArg) : String :=
  match a with
  | FmtArg.str s => if v = 's' then s else "%!" ++ String.singleton v
  | FmtArg.int i => if v = 'd' then toString i else "%!" ++ String.singleton v

/-- The format string is read left to right; a `%` consumes the next character
as a verb and the next operand, `%%` prints a percent sign, every other
character is copied. A verb with no operand left prints the missing-operand
marker and a `%` that ends the format prints the no-verb marker. -/
def sprintfAux : List Char → List FmtArg → String
  | [], _ => ""
  | [c], _ => if c = '%' then "%!(NOVERB)" else String.singleton c
  | c :: v :: rest, args =>
    if c = '%' then
      if v = '%' then "%" ++ sprintfAux rest args
      else
        match args with
        | a :: as => fmtVerb v a ++ sprintfAux rest as
        | [] => "%!" ++ String.singleton v ++ "(MISSING)" ++ sprintfAux rest []
    else String.singleton c ++ sprintfAux (v :: rest) args

/-- Embedding of `fmt.Sprintf` for the formats used by the service; every call
passes exactly the operands its format names, so operands left over are not
reported. -/
def Sprintf (format : String) (args : List FmtArg) : String :=
  sprintfAux format.toList args

/-! ## Data model -/

/-- A Go `map[string]string`. -/
abbrev GoMap := String → Option String

/-- The empty map `map[string]string{}`. -/
def GoMap.empty : GoMap := fun _ => none

/-- The assignment `m[k] = v`. -/
def GoMap.set (m : GoMap) (k v : String) : GoMap :=
  fun k' => if k' = k then some v else m k'

/-- The two-valued read `v, ok := m[k]`. -/
def GoMap.get (m : GoMap) (k : String) : String × Bool :=
  match m k with
  | some v => (v, true)
  | none => ("", false)

/-- Whether the map has an entry under `k`. -/
def GoMap.hasKey (m : GoMap) (k : String) : Bool := (m k).isSome

/-- A named file of a version. -/
structure File where
  Name : String
  Contents : String
  deriving DecidableEq

/-- Modelled from the spec: the struct `model.Version`, declared in a file of
the model package that is not embedded here. The fields are those the spec
lists and `service/utils.go` reads: the label, the
optional revision (a nil pointer is `none`), the platform bounds, the
upgrade-from expression, the readme and the files. -/
structure Version where
  Version : String
  Revision : Option Int
  MinimumRancherVersion : String
  MaximumRancherVersion : String
  UpgradeFrom : String
  Readme : String
  Files : List File
  deriving DecidableEq

/-- The struct `model.Template`. -/
structure Template where
  EnvironmentId : String
  CatalogId : Nat
  Name : String
  IsSystem : String
  Description : String
  DefaultVersion : String
  Path : String
  Maintainer : String
  License : String
  ProjectURL : String
  UpgradeFrom : String
  FolderName : String
  Catalog : String
  Base : String
  Icon : String
  IconFilename : String
  Readme : String
  Categories : List String
  Labels : List (String × String)
  Versions : List Version
  Category : String
  deriving DecidableEq

/-- The struct `model.Catalog`. -/
structure Catalog where
  EnvironmentId : String
  Name : String
  URL : String
  Branch : String
  Commit : String
  Type_ : String
  deriving DecidableEq

/-- The struct `client.Resource` of the API library, with the fields the
service fills in. -/
structure Resource where
  Id : String
  Type_ : String
  Links : GoMap

/-- The struct `model.TemplateResource` as `templateResource` fills it in. -/
structure TemplateResource where
  Resource : Resource
  Template : Template
  VersionLinks : GoMap
  DefaultTemplateVersionId : String

/-- The struct `model.TemplateVersionResource` as `versionResource` fills it
in; `Question` is the type of the parsed installation questions. -/
structure TemplateVersionResource (Question : Type) where
  Resource : Resource
  Version : Version
  Files : GoMap
  Questions : List Question
  UpgradeVersionLinks : GoMap
  TemplateId : String

/-- The functions the service calls from packages that are not embedded here,
taken as parameters: the version comparator (`utils`), the link builder of the
API context, `url.Parse` followed by `String` (`none` when parsing fails) and
the two descriptor parsers (`parse`), each giving the questions of the parsed
catalog info or an error. `VersionSatisfiesRange` returns a Go pair of a
boolean and an error, `none` being the nil error. -/
structure Deps (Question : Type) where
  VersionGreaterThan : String → String → Bool
  VersionBetween : String → String → String → Bool
  VersionSatisfiesRange : String → String → Bool × Option String
  ReferenceByIdLink : String → String → String
  urlParse : String → Option String
  CatalogInfoFromRancherCompose : String → Except String (List Question)
  CatalogInfoFromTemplateVersion : String → Except String (List Question)

/-! ## Identifier generator (`service/utils.go`) -/

/-- Embedding of `URLEncoded`: the parsed URL printed back, or the input itself
when it does not parse. -/
def URLEncoded {Q : Type} (d : Deps Q) (str : String) : String :=
  match d.urlParse str with
  | none => str
  | some u => u


/-- Embedding of `generateTemplateId`. -/
def generateTemplateId (catalogName : String) (template : Template) : String :=
  if template.Base = "" then
    Sprintf "%s:%s" [FmtArg.str catalogName, FmtArg.str template.FolderName]
  else
    Sprintf "%s:%s*%s"
      [FmtArg.str catalogName, FmtArg.str template.Base, FmtArg.str template.FolderName]

/-- Embedding of `generateVersionId`. -/
def generateVersionId (catalogName : String) (template : Template) (version : Version) :
    String :=
  let versionId := generateTemplateId catalogName template
  match version.Revision with
  | none => versionId ++ Sprintf ":%s" [FmtArg.str version.Version]
  | some revision => versionId ++ Sprintf ":%d" [FmtArg.int revision]

/-! ## Resources (`service/utils.go`) -/

/-- The first loop of `templateResource`: the links of the versions whose
platform bounds admit `rancherVersion`, keyed by version label. -/
def versionLinks {Q : Type} (d : Deps Q) (catalogName : String) (template : Template)
    (rancherVersion : String) : GoMap :=
  template.Versions.foldl
    (fun versionLinks version =>
      if d.VersionBetween version.MinimumRancherVersion rancherVersion
          version.MaximumRancherVersion then
        let route := generateVersionId catalogName template version
        let link := d.ReferenceByIdLink "template" route
        versionLinks.set version.Version (URLEncoded d link)
      else versionLinks)
    GoMap.empty

/-- The second loop of `templateResource`: the identifier of the version whose
label is the default version, the zero string when the loop assigns nothing. -/
def defaultTemplateVersionId (catalogName : String) (template : Template) : String :=
  template.Versions.foldl
    (fun defaultTemplateVersionId version =>
      if version.Version = template.DefaultVersion then
        generateVersionId catalogName template version
      else defaultTemplateVersionId)
    ""

/-- Embedding of `templateResource`. -/
def templateResource {Q : Type} (d : Deps Q) (catalogName : String) (template : Template)
    (rancherVersion envId : String) : TemplateResource :=
  let templateId := generateTemplateId catalogName template
  let versionLinks := versionLinks d catalogName template rancherVersion
  let links := GoMap.empty
  let links := links.set "icon"
    (URLEncoded d (d.ReferenceByIdLink "template"
      (Sprintf "%s?image&projectId=%s" [FmtArg.str templateId, FmtArg.str envId])))
  let links :=
    if template.Readme ≠ "" then
      links.set "readme"
        (URLEncoded d (d.ReferenceByIdLink "template"
          (Sprintf "%s?readme" [FmtArg.str templateId])))
    else links
  let links :=
    if template.ProjectURL ≠ "" then links.set "project" template.ProjectURL else links
  let defaultTemplateVersionId := defaultTemplateVersionId catalogName template
  { Resource := { Id := templateId, Type_ := "template", Links := links }
    Template := template
    VersionLinks := versionLinks
    DefaultTemplateVersionId := defaultTemplateVersionId }

/-- Embedding of `showUpgradeVersion`. -/
def showUpgradeVersion {Q : Type} (d : Deps Q) (version upgradeVersion : Version)
    (rancherVersion : String) : Bool :=
  if !d.VersionGreaterThan upgradeVersion.Version version.Version then false
  else if !d.VersionBetween upgradeVersion.MinimumRancherVersion rancherVersion
      upgradeVersion.MaximumRancherVersion then false
  else if upgradeVersion.UpgradeFrom ≠ "" then
    match d.VersionSatisfiesRange version.Version upgradeVersion.UpgradeFrom with
    | (satisfiesRange, err) => if err ≠ none then false else satisfiesRange
  else true

/-- The file loop of `versionResource`: file contents keyed by file name. -/
def filesMap (version : Version) : GoMap :=
  version.Files.foldl (fun filesMap file => filesMap.set file.Name file.Contents)
    GoMap.empty

/-- The questions step of `versionResource`: the compose file is preferred, the
template-version file is the fallback, and a parser error is returned. -/
def questions {Q : Type} (d : Deps Q) (version : Version) : Except String (List Q) :=
  match (filesMap version).get "rancher-compose.yml",
      (filesMap version).get "template-version.yml" with
  | (rancherCompose, rancherComposeExists), (templateVersion, templateVersionExists) =>
    if rancherComposeExists then
      match d.CatalogInfoFromRancherCompose rancherCompose with
      | Except.error err => Except.error err
      | Except.ok questions => Except.ok questions
    else if templateVersionExists then
      match d.CatalogInfoFromTemplateVersion templateVersion with
      | Except.error err => Except.error err
      | Except.ok questions => Except.ok questions
    else Except.ok []

/-- The last loop of `versionResource`: the links of the versions that
`showUpgradeVersion` accepts as upgrades of `version`, keyed by label. -/
def upgradeVersionLinks {Q : Type} (d : Deps Q) (catalogName : String) (template : Template)
    (version : Version) (rancherVersion : String) : GoMap :=
  template.Versions.foldl
    (fun upgradeVersionLinks upgradeVersion =>
      if showUpgradeVersion d version upgradeVersion rancherVersion then
        let route := generateVersionId catalogName template upgradeVersion
        let link := d.ReferenceByIdLink "template" route
        upgradeVersionLinks.set upgradeVersion.Version (URLEncoded d link)
      else upgradeVersionLinks)
    GoMap.empty

/-- Embedding of `versionResource`. -/
def versionResource {Q : Type} (d : Deps Q) (catalogName : String) (template : Template)
    (version : Version) (rancherVersion envId : String) :
    Except String (TemplateVersionResource Q) :=
  let templateId := generateTemplateId catalogName template
  let versionId := generateVersionId catalogName template version
  let filesMap := filesMap version
  match questions d version with
  | Except.error err => Except.error err
  | Except.ok questions =>
    let links := GoMap.empty
    let links := links.set "icon"
      (URLEncoded d (d.ReferenceByIdLink "template"
        (Sprintf "%s?image&projectId=%s" [FmtArg.str templateId, FmtArg.str envId])))
    let links :=
      if version.Readme ≠ "" then
        links.set "readme"
          (URLEncoded d (d.ReferenceByIdLink "template"
            (Sprintf "%s?readme" [FmtArg.str versionId])))
      else if template.Readme ≠ "" then
        links.set "readme"
          (URLEncoded d (d.ReferenceByIdLink "template"
            (Sprintf "%s?readme" [FmtArg.str templateId])))
      else links
    let links :=
      if template.ProjectURL ≠ "" then links.set "project" template.ProjectURL else links
    let links := links.set "template" (URLEncoded d (d.ReferenceByIdLink "template" templateId))
    let upgradeVersionLinks := upgradeVersionLinks d catalogName template version rancherVersion
    Except.ok
      { Resource := { Id := versionId, Type_ := "templateVersion", Links := links }
        Version := version
        Files := filesMap
        Questions := questions
        UpgradeVersionLinks := upgradeVersionLinks
        TemplateId := templateId }

/-! ## Registry (`model/catalog.go`, `model/template.go`) -/

/-- The embedded struct `model.Base`, declared in a file of the model package
that is not embedded here; only the row identifier `ID`, the primary key, is
read by the lookups. -/
structure Base where
  ID : Nat
  deriving DecidableEq

/-- The struct `model.CatalogModel`, a row of the table `catalog`. -/
structure CatalogModel where
  Base : Base
  Catalog : Catalog
  deriving DecidableEq

/-- The struct `model.TemplateModel`, a row of the table `catalog_template`. -/
structure TemplateModel where
  Base : Base
  Template : Template
  deriving DecidableEq

/-- A row of the table `catalog_category`, with the columns `id` and `name`
that the query of `LookupTemplates` names. -/
structure CategoryModel where
  Base : Base
  Name : String
  deriving DecidableEq

/-- A row of the table `catalog_template_category`, with the columns
`template_id` and `category_id` that the query of `LookupTemplates` names. -/
structure TemplateCategoryModel where
  TemplateId : Nat
  CategoryId : Nat
  deriving DecidableEq

/-- The database handle: the stored rows of the four tables the lookups read. -/
structure DB where
  catalog : List CatalogModel
  catalog_template : List TemplateModel
  catalog_category : List CategoryModel
  catalog_template_category : List TemplateCategoryModel

/-- The struct condition `Where(&CatalogModel{Catalog: Catalog{Name: name}})`:
the ORM compares only the fields of the struct that are not zero, so the name
is compared when it is not the empty string and nothing is compared
otherwise. -/
def whereCatalogName (name : String) (row : CatalogModel) : Bool :=
  name == "" || row.Catalog.Name == name

/-- The condition `"environment_id = ? OR environment_id = ?"` bound to the
two arguments. -/
def whereEnvironmentId (a b : String) (row : CatalogModel) : Bool :=
  row.Catalog.EnvironmentId == a || row.Catalog.EnvironmentId == b

/-- The ORM call `First`: the selected rows ordered by primary key, limited to
one; `none` is the record-not-found error. -/
def First (rows : List CatalogModel) : Option CatalogModel :=
  rows.foldl
    (fun best row =>
      match best with
      | none => some row
      | some b => if row.Base.ID < b.Base.ID then some row else some b)
    none

/-- Embedding of `LookupCatalog`; `none` is the nil pointer. -/
def LookupCatalog (db : DB) (environmentId name : String) : Option Catalog :=
  match First ((db.catalog.filter (whereCatalogName name)).filter
      (whereEnvironmentId environmentId "global")) with
  | none => none
  | some catalogModel => some catalogModel.Catalog

/-- Embedding of `strings.TrimSuffix`. -/
def TrimSuffix (s suffix : String) : String :=
  if suffix.toList.isSuffixOf s.toList then
    String.mk (s.toList.take (s.toList.length - suffix.toList.length))
  else s

/-- Embedding of `listQuery`: `size` placeholders, separated by commas, in
brackets. -/
def listQuery (size : Nat) : String :=
  let query := (List.range size).foldl (fun query _ => query ++ " ? ,") ""
  Sprintf "(%s)" [FmtArg.str (TrimSuffix query ",")]

/-- One condition of the `WHERE` part that `LookupTemplates` writes; the
conditions of a query are joined by `AND`. The two membership conditions carry
the text of their operand as the code writes it: a pair of brackets around the
text that `listQuery` produced. -/
inductive Condition where
  /-- The condition `(catalog_template.environment_id = ? OR catalog_template.environment_id = ?)` -/
  | templateEnvironment
  /-- The condition `catalog_template.id = catalog_template_category.template_id` -/
  | templateHasCategory
  /-- The condition `catalog_category.id = catalog_template_category.category_id` -/
  | categoryOfLink
  /-- The condition `catalog_template.catalog_id = catalog.id` -/
  | templateInCatalog
  /-- The condition `catalog.name = ?` -/
  | catalogNameIs
  /-- The condition `catalog_category.name IN <operand>` -/
  | categoryIn (operand : String)
  /-- The condition `catalog_category.name NOT IN <operand>` -/
  | categoryNotIn (operand : String)

/-- One row of the product of the tables in
`FROM catalog_template, catalog_template_category, catalog_category, catalog`. -/
structure JoinedRow where
  template : TemplateModel
  link : TemplateCategoryModel
  category : CategoryModel
  catalog : CatalogModel

/-- The database's reading of the operand of `IN`, character by character,
with the item counts of the open brackets on a stack. A `?` is one item of the
innermost open bracket; blanks and the commas between items are passed over. A
closing bracket inside the operand ends a bracketed expression: with one item
it is that item in brackets and counts as one item of the bracket around it,
with two or more items it is a row value, which cannot be compared with the
single column and is rejected, as is an empty pair of brackets. The closing
bracket of the operand itself gives the number of items of the list. `none` is
the database's rejection of the text. -/
def scanInList : List Char → List Nat → Option Nat
  | [], _ => none
  | c :: cs, stack =>
    if c = ' ' ∨ c = ',' then scanInList cs stack
    else if c = '(' then scanInList cs (0 :: stack)
    else if c = '?' then
      match stack with
      | [] => none
      | n :: outer => scanInList cs ((n + 1) :: outer)
    else if c = ')' then
      match stack with
      | [] => none
      | [n] => if cs.all (fun x => x == ' ') then some n else none
      | n :: k :: outer => if n = 1 then scanInList cs ((k + 1) :: outer) else none
    else none

/-- The number of items of the list that the operand text of `IN` denotes, each
of them one `?` placeholder, or `none` when the database rejects the text. -/
def inListSize (operand : String) : Option Nat := scanInList operand.toList []

/-- Binding of the placeholders of one condition to the leading arguments: the
test the condition makes on a joined row and the arguments left over, or `none`
when the arguments run out or the database rejects the text of the condition.
Columns are compared by equality of their values. -/
def bindCondition (c : Condition) (params : List String) :
    Option ((JoinedRow → Bool) × List String) :=
  match c with
  | Condition.templateEnvironment =>
    match params with
    | a :: b :: rest =>
      some (fun r => r.template.Template.EnvironmentId == a
        || r.template.Template.EnvironmentId == b, rest)
    | _ => none
  | Condition.templateHasCategory =>
    some (fun r => r.template.Base.ID == r.link.TemplateId, params)
  | Condition.categoryOfLink =>
    some (fun r => r.category.Base.ID == r.link.CategoryId, params)
  | Condition.templateInCatalog =>
    some (fun r => r.template.Template.CatalogId == r.catalog.Base.ID, params)
  | Condition.catalogNameIs =>
    match params with
    | a :: rest => some (fun r => r.catalog.Catalog.Name == a, rest)
    | [] => none
  | Condition.categoryIn operand =>
    match inListSize operand with
    | none => none
    | some n =>
      if n ≤ params.length then
        some (fun r => (params.take n).contains r.category.Name, params.drop n)
      else none
  | Condition.categoryNotIn operand =>
    match inListSize operand with
    | none => none
    | some n =>
      if n ≤ params.length then
        some (fun r => !(params.take n).contains r.category.Name, params.drop n)
      else none

/-- Binding of a whole query: every placeholder takes one argument, in order,
and no argument may be left over; `none` is the error of a query that the
database rejects or whose arguments do not match its placeholders. -/
def bindQuery : List Condition → List String → Option (JoinedRow → Bool)
  | [], [] => some (fun _ => true)
  | [], _ :: _ => none
  | c :: cs, params =>
    match bindCondition c params with
    | none => none
    | some (test, rest) =>
      match bindQuery cs rest with
      | none => none
      | some tests => some (fun r => test r && tests r)

/-- The rows of the product of the four tables. -/
def joinedRows (db : DB) : List JoinedRow :=
  db.catalog_template.flatMap fun t =>
    db.catalog_template_category.flatMap fun l =>
      db.catalog_category.flatMap fun g =>
        db.catalog.map fun c => { template := t, link := l, category := g, catalog := c }

/-- The ORM call `Raw(query, params...).Find(&templateModels)` for the query
`SELECT catalog_template.*`: the template of every joined row that passes the
conditions; a query that fails leaves the result empty, and the error is not
looked at. -/
def rawFind (db : DB) (query : List Condition) (params : List String) :
    List TemplateModel :=
  match bindQuery query params with
  | none => []
  | some test => ((joinedRows db).filter test).map (fun r => r.template)

/-- The lookups of the model package whose code is not embedded here, taken as
parameters: the category names, labels and versions stored for a
template row identifier. -/
structure ModelDeps where
  lookupTemplateCategories : DB → Nat → List String
  lookupLabels : DB → Nat → List (String × String)
  lookupVersions : DB → Nat → List Version

/-- The body of the last loop of `LookupTemplates`: a found row with its
categories, labels and versions loaded. -/
def loadTemplate (m : ModelDeps) (db : DB) (templateModel : TemplateModel) : Template :=
  { templateModel.Template with
    Categories := m.lookupTemplateCategories db templateModel.Base.ID
    Labels := m.lookupLabels db templateModel.Base.ID
    Versions := m.lookupVersions db templateModel.Base.ID }

/-- The arguments that `LookupTemplates` collects for the placeholders: the
two scopes, the catalog name when one is given, the categories to include and
the categories to exclude. -/
def lookupTemplatesParams (environmentId catalog : String)
    (categories categoriesNe : List String) : List String :=
  let params := [environmentId, "global"]
  let params := if catalog ≠ "" then params ++ [catalog] else params
  let params := categories.foldl (fun params category => params ++ [category]) params
  let params := categoriesNe.foldl (fun params categoryNe => params ++ [categoryNe]) params
  params

/-- The query that `LookupTemplates` writes: the scope condition and the three
join conditions, then a condition for each filter that is given. The operand
of `IN` and of `NOT IN` is written as `(%s)` around the text of `listQuery`,
which has brackets of its own. -/
def lookupTemplatesQuery (catalog : String) (categories categoriesNe : List String) :
    List Condition :=
  let query := [Condition.templateEnvironment, Condition.templateHasCategory,
    Condition.categoryOfLink, Condition.templateInCatalog]
  let query := if catalog ≠ "" then query ++ [Condition.catalogNameIs] else query
  let query :=
    if categories.length > 0 then
      query ++ [Condition.categoryIn
        (Sprintf "(%s)" [FmtArg.str (listQuery categories.length)])]
    else query
  let query :=
    if categoriesNe.length > 0 then
      query ++ [Condition.categoryNotIn
        (Sprintf "(%s)" [FmtArg.str (listQuery categoriesNe.length)])]
    else query
  query

/-- Embedding of `LookupTemplates`. -/
def LookupTemplates (m : ModelDeps) (db : DB) (environmentId catalog : String)
    (categories categoriesNe : List String) : List Template :=
  let params := lookupTemplatesParams environmentId catalog categories categoriesNe
  let query := lookupTemplatesQuery catalog categories categoriesNe
  let templateModels := rawFind db query params
  templateModels.foldl (fun templates templateModel =>
    templates ++ [loadTemplate m db templateModel]) []

/-! ## Notions used by the statements -/

/-- A name is free of separators when it contains neither `:` nor `*`. -/
def sepFree (s : String) : Prop := ':' ∉ s.toList ∧ '*' ∉ s.toList

instance (s : String) : Decidable (sepFree s) := by
  unfold sepFree
  exact inferInstance

/-- The number written by a list of decimal digits, most significant first. -/
def digitsValue (cs : List Char) : Nat :=
  cs.foldl (fun acc c => acc * 10 + (c.toNat - 48)) 0

/-- A catalog row is a candidate of `LookupCatalog` when it has the name asked
for and is stored under the tenant scope or under `"global"`. -/
def catalogCandidate (environmentId name : String) (row : CatalogModel) : Prop :=
  row.Catalog.Name = name
    ∧ (row.Catalog.EnvironmentId = environmentId ∨ row.Catalog.EnvironmentId = "global")

instance (environmentId name : String) (row : CatalogModel) :
    Decidable (catalogCandidate environmentId name row) := by
  unfold catalogCandidate
  exact inferInstance

/-- The tags of a template row: the names of the stored categories that a
stored link ties to the row. -/
def tagsOf (db : DB) (row : TemplateModel) : List String :=
  db.catalog_template_category.flatMap fun l =>
    if row.Base.ID = l.TemplateId then
      (db.catalog_category.filter (fun g => g.Base.ID == l.CategoryId)).map (fun g => g.Name)
    else []

/-- The scope of a template row is the tenant scope or `"global"`. -/
def templateInScope (environmentId : String) (row : TemplateModel) : Prop :=
  row.Template.EnvironmentId = environmentId ∨ row.Template.EnvironmentId = "global"

/-- The catalog a template row refers to is stored and, when a catalog name is
asked for, has that name. -/
def templateInCatalogNamed (db : DB) (catalog : String) (row : TemplateModel) : Prop :=
  ∃ c ∈ db.catalog, row.Template.CatalogId = c.Base.ID
    ∧ (catalog = "" ∨ c.Catalog.Name = catalog)

/-! ## Sample inputs -/

/-- A catalog with only its scope, name and source location set. -/
def sampleCatalog (environmentId name url : String) : Catalog where
  EnvironmentId := environmentId
  Name := name
  URL := url
  Branch := "master"
  Commit := ""
  Type_ := ""

/-- Two catalogs named `community`: the shared one was stored first, the one
of `tenant-A` second. -/
def sampleCatalogs : DB where
  catalog :=
    [ { Base := { ID := 1 }, Catalog := sampleCatalog "global" "community" "https://shared" },
      { Base := { ID := 2 }, Catalog := sampleCatalog "tenant-A" "community" "https://own" } ]
  catalog_template := []
  catalog_category := []
  catalog_template_category := []

/-- Lexicographic order on labels, character by character. -/
def labelLess : List Char → List Char → Bool
  | [], [] => false
  | [], _ :: _ => true
  | _ :: _, [] => false
  | a :: as, b :: bs =>
    if a.toNat < b.toNat then true
    else if b.toNat < a.toNat then false
    else labelLess as bs

/-- A concrete comparator and link builder on which the definitions are
evaluated at sample inputs: labels are compared lexicographically, the range
expression `"malformed"` is the one that does not parse and every other
expression is a lower bound on the label. -/
def sampleDeps : Deps String where
  VersionGreaterThan a b := labelLess b.toList a.toList
  VersionBetween a b c :=
    (a == "" || !labelLess b.toList a.toList) && (c == "" || !labelLess c.toList b.toList)
  VersionSatisfiesRange v r :=
    if r = "malformed" then (false, some "could not parse range")
    else (!labelLess v.toList r.toList, none)
  ReferenceByIdLink kind id := "/v1-catalog/" ++ kind ++ "s/" ++ id
  urlParse s := some s
  CatalogInfoFromRancherCompose s := if s = "" then Except.error "empty file" else Except.ok [s]
  CatalogInfoFromTemplateVersion s := if s = "" then Except.error "empty file" else Except.ok [s]

/-- A template with only its base, folder, default version and versions set. -/
def sampleTemplate (base folder defaultVersion : String) (versions : List Version) :
    Template where
  EnvironmentId := ""
  CatalogId := 0
  Name := ""
  IsSystem := ""
  Description := ""
  DefaultVersion := defaultVersion
  Path := ""
  Maintainer := ""
  License := ""
  ProjectURL := ""
  UpgradeFrom := ""
  FolderName := folder
  Catalog := ""
  Base := base
  Icon := ""
  IconFilename := ""
  Readme := ""
  Categories := []
  Labels := []
  Versions := versions
  Category := ""

/-- A version with only its label, revision, platform bounds and upgrade-from
expression set. -/
def sampleVersion (label : String) (revision : Option Int) (min max upgradeFrom : String) :
    Version where
  Version := label
  Revision := revision
  MinimumRancherVersion := min
  MaximumRancherVersion := max
  UpgradeFrom := upgradeFrom
  Readme := ""
  Files := []

/-- A stored template row with only its identifier, scope, catalog and name
set. -/
def sampleTemplateRow (id : Nat) (environmentId : String) (catalogId : Nat) (name : String) :
    TemplateModel where
  Base := { ID := id }
  Template :=
    { sampleTemplate "" name "" [] with
      EnvironmentId := environmentId, CatalogId := catalogId, Name := name }

/-- A registry with one shared catalog and two of its templates: `mysql`,
tagged `database` and `deprecated`, and `plain`, which has no tags. -/
def sampleRegistry : DB where
  catalog :=
    [ { Base := { ID := 1 }, Catalog := sampleCatalog "global" "library" "https://shared" } ]
  catalog_template :=
    [ sampleTemplateRow 1 "global" 1 "mysql", sampleTemplateRow 2 "global" 1 "plain" ]
  catalog_category :=
    [ { Base := { ID := 1 }, Name := "database" }, { Base := { ID := 2 }, Name := "deprecated" } ]
  catalog_template_category :=
    [ { TemplateId := 1, CategoryId := 1 }, { TemplateId := 1, CategoryId := 2 } ]

/-- Loaders for the sample registry: the categories of a row are its tags, and
no labels or versions are stored. -/
def sampleModelDeps : ModelDeps where
  lookupTemplateCategories db id :=
    db.catalog_template_category.flatMap fun l =>
      if id = l.TemplateId then
        (db.catalog_category.filter (fun g => g.Base.ID == l.CategoryId)).map (fun g => g.Name)
      else []
  lookupLabels _ _ := []
  lookupVersions _ _ := []

/-! ## Formatting lemmas -/

theorem Sprintf_s_colon_s (a b : String) :
    Sprintf "%s:%s" [FmtArg.str a, FmtArg.str b] = a ++ ":" ++ b := by
  apply String.ext
  simp [Sprintf, sprintfAux, fmtVerb, String.singleton]

theorem Sprintf_s_colon_s_star_s (a b c : String) :
    Sprintf "%s:%s*%s" [FmtArg.str a, FmtArg.str b, FmtArg.str c]
      = a ++ ":" ++ b ++ "*" ++ c := by
  apply String.ext
  simp [Sprintf, sprintfAux, fmtVerb, String.singleton]

theorem Sprintf_colon_s (a : String) :
    Sprintf ":%s" [FmtArg.str a] = ":" ++ a := by
  apply String.ext
  simp [Sprintf, sprintfAux, fmtVerb, String.singleton]

theorem Sprintf_colon_d (i : Int) :
    Sprintf ":%d" [FmtArg.int i] = ":" ++ toString i := by
  apply String.ext
  simp [Sprintf, sprintfAux, fmtVerb, String.singleton]


/-! ## Decimal rendering -/

theorem digitChar_value : ∀ d < 10, (Nat.digitChar d).toNat - 48 = d := by decide

theorem digitChar_ne_minus : ∀ d < 10, Nat.digitChar d ≠ '-' := by decide

theorem foldl_toDigitsCore (fuel : Nat) : ∀ (n : Nat) (ds : List Char), n < fuel →
    (Nat.toDigitsCore 10 fuel n ds).foldl (fun acc c => acc * 10 + (c.toNat - 48)) 0
      = ds.foldl (fun acc c => acc * 10 + (c.toNat - 48)) n := by
  induction fuel with
  | zero => intro n ds h; omega
  | succ fuel ih =>
    intro n ds h
    have hd : (Nat.digitChar (n % 10)).toNat - 48 = n % 10 :=
      digitChar_value (n % 10) (Nat.mod_lt n (by decide))
    by_cases h0 : n / 10 = 0
    · have hn : n % 10 = n := by omega
      rw [hn] at hd
      simp [Nat.toDigitsCore, h0, hd, hn]
    · have hlt : n / 10 < fuel := by omega
      have hn : n / 10 * 10 + n % 10 = n := by omega
      simp [Nat.toDigitsCore, h0, ih (n / 10) _ hlt, hd, hn]

theorem digitsValue_toDigits (n : Nat) : digitsValue (Nat.toDigits 10 n) = n := by
  have h := foldl_toDigitsCore (n + 1) n [] (Nat.lt_succ_self n)
  simpa [digitsValue, Nat.toDigits] using h

theorem toDigitsCore_no_minus (fuel : Nat) : ∀ (n : Nat) (ds : List Char),
    '-' ∉ ds → '-' ∉ Nat.toDigitsCore 10 fuel n ds := by
  induction fuel with
  | zero => intro n ds h; simpa [Nat.toDigitsCore] using h
  | succ fuel ih =>
    intro n ds h
    have hd : Nat.digitChar (n % 10) ≠ '-' :=
      digitChar_ne_minus (n % 10) (Nat.mod_lt n (by decide))
    have hcons : '-' ∉ Nat.digitChar (n % 10) :: ds := by
      simp only [List.mem_cons, not_or]
      exact ⟨fun e => hd e.symm, h⟩
    by_cases h0 : n / 10 = 0
    · simpa [Nat.toDigitsCore, h0] using hcons
    · simpa [Nat.toDigitsCore, h0] using ih (n / 10) _ hcons

theorem toDigits_no_minus (n : Nat) : '-' ∉ Nat.toDigits 10 n :=
  toDigitsCore_no_minus (n + 1) n [] (by simp)

theorem toString_nat_toList (n : Nat) : (toString n).toList = Nat.toDigits 10 n := by
  show (Nat.repr n).toList = _
  simp [Nat.repr, List.asString]

theorem toString_int_ofNat (n : Nat) : toString (Int.ofNat n) = toString n := rfl

theorem toString_int_negSucc (n : Nat) :
    toString (Int.negSucc n) = "-" ++ toString (n + 1) := rfl

/-- The decimal rendering of integers is injective. -/
theorem toString_int_injective (i j : Int) (h : toString i = toString j) : i = j := by
  have hl := congrArg String.toList h
  cases i with
  | ofNat m =>
    cases j with
    | ofNat n =>
      rw [toString_int_ofNat, toString_int_ofNat, toString_nat_toList, toString_nat_toList] at hl
      have := congrArg digitsValue hl
      rw [digitsValue_toDigits, digitsValue_toDigits] at this
      rw [this]
    | negSucc n =>
      rw [toString_int_ofNat, toString_int_negSucc, toString_nat_toList] at hl
      have hm := toDigits_no_minus m
      rw [hl] at hm
      simp at hm
  | negSucc m =>
    cases j with
    | ofNat n =>
      rw [toString_int_ofNat, toString_int_negSucc, toString_nat_toList] at hl
      have hn := toDigits_no_minus n
      rw [← hl] at hn
      simp at hn
    | negSucc n =>
      rw [toString_int_negSucc, toString_int_negSucc] at hl
      simp only [String.toList, String.data_append, toString_nat_toList] at hl
      have h2 : Nat.toDigits 10 (m + 1) = Nat.toDigits 10 (n + 1) := by
        have := toString_nat_toList (m + 1)
        have := toString_nat_toList (n + 1)
        simp only [String.toList] at *
        simp_all
      have := congrArg digitsValue h2
      rw [digitsValue_toDigits, digitsValue_toDigits] at this
      have hmn : m = n := by omega
      rw [hmn]

/-! ## Identifier generator -/

theorem generateTemplateId_eq (catalogName : String) (template : Template) :
    generateTemplateId catalogName template
      = if template.Base = "" then catalogName ++ ":" ++ template.FolderName
        else catalogName ++ ":" ++ template.Base ++ "*" ++ template.FolderName := by
  unfold generateTemplateId
  split
  · exact Sprintf_s_colon_s _ _
  · exact Sprintf_s_colon_s_star_s _ _ _

theorem generateVersionId_eq (catalogName : String) (template : Template)
    (version : Version) :
    generateVersionId catalogName template version
      = generateTemplateId catalogName template ++ ":"
          ++ (match version.Revision with
              | some revision => toString revision
              | none => version.Version) := by
  unfold generateVersionId
  cases version.Revision with
  | none => simp only [Sprintf_colon_s, String.append_assoc]
  | some revision => simp only [Sprintf_colon_d, String.append_assoc]

/-- C2: `generateTemplateId` is `catalogName:FolderName` for an empty base and
`catalogName:Base*FolderName` otherwise, and two templates with the same base
and folder name get the same identifier whatever their other fields are. -/
theorem generateTemplateId_format (catalogName : String) (template : Template) :
    generateTemplateId catalogName template
        = (if template.Base = "" then catalogName ++ ":" ++ template.FolderName
           else catalogName ++ ":" ++ template.Base ++ "*" ++ template.FolderName)
    ∧ ∀ other : Template, other.Base = template.Base →
        other.FolderName = template.FolderName →
        generateTemplateId catalogName other = generateTemplateId catalogName template := by
  refine ⟨generateTemplateId_eq catalogName template, ?_⟩
  intro other hb hf
  rw [generateTemplateId_eq, generateTemplateId_eq, hb, hf]

/-- C1: `generateVersionId` is the template identifier, a colon, and then the
decimal rendering of the revision when a revision is set and the version label
when none is set; two versions with the same set revision get the same
identifier whatever their labels are. -/
theorem generateVersionId_format (catalogName : String) (template : Template)
    (version : Version) :
    (∀ revision : Int, version.Revision = some revision →
        generateVersionId catalogName template version
          = generateTemplateId catalogName template ++ ":" ++ toString revision)
    ∧ (version.Revision = none →
        generateVersionId catalogName template version
          = generateTemplateId catalogName template ++ ":" ++ version.Version)
    ∧ ∀ other : Version, version.Revision ≠ none → other.Revision = version.Revision →
        generateVersionId catalogName template other
          = generateVersionId catalogName template version := by
  refine ⟨?_, ?_, ?_⟩
  · intro revision h
    rw [generateVersionId_eq, h]
  · intro h
    rw [generateVersionId_eq, h]
  · intro other hset h
    rw [generateVersionId_eq, generateVersionId_eq, h]
    cases hr : version.Revision with
    | none => exact absurd hr hset
    | some revision => rfl

theorem split_at_separator (c : Char) : ∀ (a b r t : List Char), c ∉ a → c ∉ b →
    a ++ c :: r = b ++ c :: t → a = b ∧ r = t := by
  intro a
  induction a with
  | nil =>
    intro b r t _ hb h
    cases b with
    | nil => simpa using h
    | cons y b =>
      simp only [List.nil_append, List.cons_append, List.cons.injEq] at h
      exact absurd (by simp [h.1]) hb
  | cons x a ih =>
    intro b r t ha hb h
    cases b with
    | nil =>
      simp only [List.nil_append, List.cons_append, List.cons.injEq] at h
      exact absurd (by simp [h.1]) ha
    | cons y b =>
      simp only [List.cons_append, List.cons.injEq] at h
      have ha' : c ∉ a := fun hm => ha (List.mem_cons_of_mem _ hm)
      have hb' : c ∉ b := fun hm => hb (List.mem_cons_of_mem _ hm)
      obtain ⟨e1, e2⟩ := ih b r t ha' hb' h.2
      exact ⟨by rw [h.1, e1], e2⟩

/-- The part of a template identifier behind the catalog name determines the
base and the folder name when both are free of separators. -/
theorem template_path_injective (b1 f1 b2 f2 : String)
    (hb1 : sepFree b1) (hf1 : sepFree f1) (hb2 : sepFree b2) (hf2 : sepFree f2)
    (h : (if b1 = "" then f1.toList else b1.toList ++ '*' :: f1.toList)
       = (if b2 = "" then f2.toList else b2.toList ++ '*' :: f2.toList)) :
    b1 = b2 ∧ f1 = f2 := by
  by_cases e1 : b1 = "" <;> by_cases e2 : b2 = ""
  · simp only [e1, e2, if_true] at h
    exact ⟨by rw [e1, e2], String.ext h⟩
  · simp only [e1, e2, if_true, if_false] at h
    exact absurd (by rw [h]; simp) hf1.2
  · simp only [e1, e2, if_true, if_false] at h
    exact absurd (by rw [← h]; simp) hf2.2
  · simp only [e1, e2, if_false] at h
    obtain ⟨hb, hf⟩ := split_at_separator '*' _ _ _ _ hb1.2 hb2.2 h
    exact ⟨String.ext hb, String.ext hf⟩

theorem generateTemplateId_toList (catalogName : String) (template : Template) :
    (generateTemplateId catalogName template).toList
      = catalogName.toList ++ ':' ::
          (if template.Base = "" then template.FolderName.toList
           else template.Base.toList ++ '*' :: template.FolderName.toList) := by
  rw [generateTemplateId_eq]
  split <;> simp [String.toList]

theorem template_path_no_colon (template : Template)
    (hb : sepFree template.Base) (hf : sepFree template.FolderName) :
    ':' ∉ (if template.Base = "" then template.FolderName.toList
           else template.Base.toList ++ '*' :: template.FolderName.toList) := by
  split
  · exact hf.1
  · simp only [List.mem_append, List.mem_cons, not_or]
    exact ⟨hb.1, by decide, hf.1⟩

/-- C6: on catalog names, bases and folder names free of `:` and `*`, equal
template identifiers come from equal catalog names, bases and folder names. -/
theorem generateTemplateId_injective (c1 c2 : String) (t1 t2 : Template)
    (hc1 : sepFree c1) (hc2 : sepFree c2)
    (hb1 : sepFree t1.Base) (hf1 : sepFree t1.FolderName)
    (hb2 : sepFree t2.Base) (hf2 : sepFree t2.FolderName)
    (h : generateTemplateId c1 t1 = generateTemplateId c2 t2) :
    c1 = c2 ∧ t1.Base = t2.Base ∧ t1.FolderName = t2.FolderName := by
  have hl := congrArg String.toList h
  rw [generateTemplateId_toList, generateTemplateId_toList] at hl
  obtain ⟨hc, hp⟩ := split_at_separator ':' _ _ _ _ hc1.1 hc2.1 hl
  obtain ⟨hb, hf⟩ := template_path_injective _ _ _ _ hb1 hf1 hb2 hf2 hp
  exact ⟨String.ext hc, hb, hf⟩

/-- Sample input of C6: the identifier `community:infra*mysql` read back. -/
theorem generateTemplateId_injective_witness :
    generateTemplateId "community" (sampleTemplate "infra" "mysql" "1.0" [])
        = generateTemplateId "community" (sampleTemplate "infra" "mysql" "2.0" [])
    ∧ ("community" = "community"
      ∧ (sampleTemplate "infra" "mysql" "1.0" []).Base
          = (sampleTemplate "infra" "mysql" "2.0" []).Base
      ∧ (sampleTemplate "infra" "mysql" "1.0" []).FolderName
          = (sampleTemplate "infra" "mysql" "2.0" []).FolderName) :=
  ⟨by decide,
   generateTemplateId_injective "community" "community"
    (sampleTemplate "infra" "mysql" "1.0" []) (sampleTemplate "infra" "mysql" "2.0" [])
    (by decide) (by decide) (by decide) (by decide) (by decide) (by decide) (by decide)⟩

theorem generateVersionId_toList (catalogName : String) (template : Template)
    (version : Version) :
    (generateVersionId catalogName template version).toList
      = catalogName.toList ++ ':' ::
          ((if template.Base = "" then template.FolderName.toList
            else template.Base.toList ++ '*' :: template.FolderName.toList)
            ++ ':' :: (match version.Revision with
                       | some revision => toString revision
                       | none => version.Version).toList) := by
  rw [generateVersionId_eq]
  have h := generateTemplateId_toList catalogName template
  simp only [String.toList] at h ⊢
  simp [h]

/-- C7, as the code has it: on catalog names, bases and folder names free of
`:` and `*`, equal version identifiers come from equal catalog names, bases and
folder names and from versions that carry the same revision, or carry no
revision and the same label, or of which one carries a revision whose decimal
rendering is the label of the other, which carries none. -/
theorem generateVersionId_injective (c1 c2 : String) (t1 t2 : Template) (v1 v2 : Version)
    (hc1 : sepFree c1) (hc2 : sepFree c2)
    (hb1 : sepFree t1.Base) (hf1 : sepFree t1.FolderName)
    (hb2 : sepFree t2.Base) (hf2 : sepFree t2.FolderName)
    (h : generateVersionId c1 t1 v1 = generateVersionId c2 t2 v2) :
    c1 = c2 ∧ t1.Base = t2.Base ∧ t1.FolderName = t2.FolderName
    ∧ ((∃ r : Int, v1.Revision = some r ∧ v2.Revision = some r)
      ∨ (v1.Revision = none ∧ v2.Revision = none ∧ v1.Version = v2.Version)
      ∨ (∃ r : Int, v1.Revision = some r ∧ v2.Revision = none ∧ v2.Version = toString r)
      ∨ (∃ r : Int, v1.Revision = none ∧ v2.Revision = some r ∧ v1.Version = toString r)) := by
  have hl := congrArg String.toList h
  rw [generateVersionId_toList, generateVersionId_toList] at hl
  obtain ⟨hc, hrest⟩ := split_at_separator ':' _ _ _ _ hc1.1 hc2.1 hl
  obtain ⟨hp, hk⟩ := split_at_separator ':' _ _ _ _
    (template_path_no_colon t1 hb1 hf1) (template_path_no_colon t2 hb2 hf2) hrest
  obtain ⟨hb, hf⟩ := template_path_injective _ _ _ _ hb1 hf1 hb2 hf2 hp
  refine ⟨String.ext hc, hb, hf, ?_⟩
  have hkey := String.ext hk
  cases h1 : v1.Revision with
  | none =>
    cases h2 : v2.Revision with
    | none =>
      rw [h1, h2] at hkey
      exact Or.inr (Or.inl ⟨rfl, rfl, hkey⟩)
    | some r2 =>
      rw [h1, h2] at hkey
      exact Or.inr (Or.inr (Or.inr ⟨r2, rfl, rfl, hkey⟩))
  | some r1 =>
    cases h2 : v2.Revision with
    | none =>
      rw [h1, h2] at hkey
      exact Or.inr (Or.inr (Or.inl ⟨r1, rfl, rfl, hkey.symm⟩))
    | some r2 =>
      rw [h1, h2] at hkey
      have hr : r1 = r2 := toString_int_injective r1 r2 hkey
      exact Or.inl ⟨r1, rfl, by rw [hr]⟩

/-- Sample input of C7: two versions with revision 7 and different labels. -/
theorem generateVersionId_injective_witness :
    generateVersionId "community" (sampleTemplate "infra" "mysql" "" [])
        (sampleVersion "1.0.0" (some 7) "" "" "")
      = generateVersionId "community" (sampleTemplate "infra" "mysql" "" [])
        (sampleVersion "1.0.0-rancher1" (some 7) "" "" "")
    ∧ ("community" = "community"
      ∧ (sampleTemplate "infra" "mysql" "" []).Base = (sampleTemplate "infra" "mysql" "" []).Base
      ∧ (sampleTemplate "infra" "mysql" "" []).FolderName
          = (sampleTemplate "infra" "mysql" "" []).FolderName
      ∧ ((∃ r : Int, (sampleVersion "1.0.0" (some 7) "" "" "").Revision = some r
            ∧ (sampleVersion "1.0.0-rancher1" (some 7) "" "" "").Revision = some r)
        ∨ ((sampleVersion "1.0.0" (some 7) "" "" "").Revision = none
            ∧ (sampleVersion "1.0.0-rancher1" (some 7) "" "" "").Revision = none
            ∧ (sampleVersion "1.0.0" (some 7) "" "" "").Version
                = (sampleVersion "1.0.0-rancher1" (some 7) "" "" "").Version)
        ∨ (∃ r : Int, (sampleVersion "1.0.0" (some 7) "" "" "").Revision = some r
            ∧ (sampleVersion "1.0.0-rancher1" (some 7) "" "" "").Revision = none
            ∧ (sampleVersion "1.0.0-rancher1" (some 7) "" "" "").Version = toString r)
        ∨ (∃ r : Int, (sampleVersion "1.0.0" (some 7) "" "" "").Revision = none
            ∧ (sampleVersion "1.0.0-rancher1" (some 7) "" "" "").Revision = some r
            ∧ (sampleVersion "1.0.0" (some 7) "" "" "").Version = toString r))) :=
  ⟨by decide,
   generateVersionId_injective "community" "community"
    (sampleTemplate "infra" "mysql" "" []) (sampleTemplate "infra" "mysql" "" [])
    (sampleVersion "1.0.0" (some 7) "" "" "")
    (sampleVersion "1.0.0-rancher1" (some 7) "" "" "")
    (by decide) (by decide) (by decide) (by decide) (by decide) (by decide) (by decide)⟩

/-- C7 fails as stated: with separator-free names, a version with revision 5
and label `1.0.0` and a version with no revision and label `5` get the same
identifier `community:mysql:5`, yet they neither carry the same revision nor
both lack one. -/
theorem generateVersionId_revision_label_collision :
    sepFree "community" ∧ sepFree "" ∧ sepFree "mysql"
    ∧ generateVersionId "community" (sampleTemplate "" "mysql" "" [])
          (sampleVersion "1.0.0" (some 5) "" "" "") = "community:mysql:5"
    ∧ generateVersionId "community" (sampleTemplate "" "mysql" "" [])
          (sampleVersion "5" none "" "" "") = "community:mysql:5"
    ∧ ¬ ((∃ r : Int, (sampleVersion "1.0.0" (some 5) "" "" "").Revision = some r
            ∧ (sampleVersion "5" none "" "" "").Revision = some r)
        ∨ ((sampleVersion "1.0.0" (some 5) "" "" "").Revision = none
            ∧ (sampleVersion "5" none "" "" "").Revision = none
            ∧ (sampleVersion "1.0.0" (some 5) "" "" "").Version
                = (sampleVersion "5" none "" "" "").Version)) := by
  refine ⟨by decide, by decide, by decide, by decide, by decide, ?_⟩
  rintro (⟨r, _, h⟩ | ⟨h, _, _⟩)
  · exact absurd h (by simp [sampleVersion])
  · exact absurd h (by simp [sampleVersion])

/-! ## Upgrade targets -/

/-- C3: `showUpgradeVersion` is true exactly when the candidate's label is
greater than the current one, the platform version lies between the
candidate's bounds, and the candidate's upgrade-from expression is empty or
the current label satisfies it with no error; so it is false whenever the
candidate's label is not greater than the current one. -/
theorem showUpgradeVersion_iff {Q : Type} (d : Deps Q) (version upgradeVersion : Version)
    (rancherVersion : String) :
    (showUpgradeVersion d version upgradeVersion rancherVersion = true
      ↔ d.VersionGreaterThan upgradeVersion.Version version.Version = true
        ∧ d.VersionBetween upgradeVersion.MinimumRancherVersion rancherVersion
            upgradeVersion.MaximumRancherVersion = true
        ∧ (upgradeVersion.UpgradeFrom = ""
          ∨ d.VersionSatisfiesRange version.Version upgradeVersion.UpgradeFrom
              = (true, none)))
    ∧ (d.VersionGreaterThan upgradeVersion.Version version.Version = false →
        showUpgradeVersion d version upgradeVersion rancherVersion = false) := by
  unfold showUpgradeVersion
  rcases hr : d.VersionSatisfiesRange version.Version upgradeVersion.UpgradeFrom
    with ⟨ok, err⟩
  cases hg : d.VersionGreaterThan upgradeVersion.Version version.Version <;>
    cases hb : d.VersionBetween upgradeVersion.MinimumRancherVersion rancherVersion
      upgradeVersion.MaximumRancherVersion <;>
    by_cases hu : upgradeVersion.UpgradeFrom = "" <;>
    cases ok <;> cases err <;> simp [hu]

/-! ## Loops that fill a map or keep the last match -/

/-- A loop that assigns `m[key x] = val x` for the elements that pass `p`
leaves under `L` the value of the last passing element with key `L`, and the
initial entry when there is none. -/
theorem foldl_set_lookup {α : Type} (p : α → Bool) (key val : α → String) (xs : List α)
    (m : GoMap) (L : String) :
    (xs.foldl (fun m x => if p x = true then m.set (key x) (val x) else m) m) L
      = (((xs.filter (fun x => p x && key x == L)).getLast?).map
          (fun x => some (val x))).getD (m L) := by
  induction xs using List.reverseRecOn with
  | nil => simp
  | append_singleton xs x ih =>
    rw [List.foldl_append, List.filter_append]
    simp only [List.foldl_cons, List.foldl_nil]
    by_cases hp : p x = true
    · by_cases hk : key x = L
      · have hf : List.filter (fun x => p x && key x == L) [x] = [x] := by
          simp [List.filter, hp, hk]
        rw [hf, List.getLast?_concat]
        simp [hp, GoMap.set, hk]
      · have hbeq : (key x == L) = false := by simpa using hk
        have hf : List.filter (fun x => p x && key x == L) [x] = [] := by
          simp [List.filter, hp, hbeq]
        have hL : ¬ L = key x := fun e => hk e.symm
        rw [hf, List.append_nil, ← ih]
        simp [hp, GoMap.set, hL]
    · have hf : List.filter (fun x => p x && key x == L) [x] = [] := by
        simp [List.filter, hp]
      rw [hf, List.append_nil, ← ih]
      simp [hp]

/-- A loop that overwrites a variable with `g x` for the elements that pass
`p` ends with `g` of the last passing element, and with the initial value when
there is none. -/
theorem foldl_keep_last {α β : Type} (p : α → Prop) [DecidablePred p] (g : α → β)
    (xs : List α) (init : β) :
    xs.foldl (fun acc x => if p x then g x else acc) init
      = (((xs.filter (fun x => decide (p x))).getLast?).map g).getD init := by
  induction xs using List.reverseRecOn with
  | nil => simp
  | append_singleton xs x ih =>
    rw [List.foldl_append, List.filter_append]
    simp only [List.foldl_cons, List.foldl_nil]
    by_cases hp : p x
    · have hf : List.filter (fun x => decide (p x)) [x] = [x] := by simp [List.filter, hp]
      rw [hf, List.getLast?_concat]
      simp [hp]
    · have hf : List.filter (fun x => decide (p x)) [x] = [] := by simp [List.filter, hp]
      rw [hf, List.append_nil, ← ih]
      simp [hp]

theorem getLast?_filter_isSome {α : Type} (q : α → Bool) (xs : List α) :
    ((xs.filter q).getLast?).isSome = true ↔ ∃ x ∈ xs, q x = true := by
  constructor
  · intro h
    obtain ⟨x, hx⟩ := Option.isSome_iff_exists.mp h
    have hm := List.mem_of_getLast?_eq_some hx
    rw [List.mem_filter] at hm
    exact ⟨x, hm.1, hm.2⟩
  · rintro ⟨x, hx, hq⟩
    cases hl : (xs.filter q).getLast? with
    | some y => rfl
    | none =>
      rw [List.getLast?_eq_none_iff] at hl
      have : x ∈ xs.filter q := List.mem_filter.mpr ⟨hx, hq⟩
      rw [hl] at this
      simp at this

/-! ## Installable versions and the default version -/

theorem versionLinks_lookup {Q : Type} (d : Deps Q) (catalogName : String)
    (template : Template) (rancherVersion L : String) :
    versionLinks d catalogName template rancherVersion L
      = ((template.Versions.filter (fun v =>
            d.VersionBetween v.MinimumRancherVersion rancherVersion v.MaximumRancherVersion
              && v.Version == L)).getLast?).map
          (fun v => URLEncoded d (d.ReferenceByIdLink "template"
            (generateVersionId catalogName template v))) := by
  have h := foldl_set_lookup
    (fun v : Version =>
      d.VersionBetween v.MinimumRancherVersion rancherVersion v.MaximumRancherVersion)
    (fun v : Version => v.Version)
    (fun v : Version => URLEncoded d (d.ReferenceByIdLink "template"
      (generateVersionId catalogName template v)))
    template.Versions GoMap.empty L
  unfold versionLinks
  rw [h]
  cases (template.Versions.filter (fun v =>
      d.VersionBetween v.MinimumRancherVersion rancherVersion v.MaximumRancherVersion
        && v.Version == L)).getLast? <;> rfl

/-- C5: the `VersionLinks` of `templateResource` have the key `L` exactly when
some version of the template has the label `L` and platform bounds that admit
the platform version, and the entry under `L` is the encoded link of the
version identifier of the last such version in list order. -/
theorem templateResource_versionLinks {Q : Type} (d : Deps Q) (catalogName : String)
    (template : Template) (rancherVersion envId L : String) :
    ((templateResource d catalogName template rancherVersion envId).VersionLinks.hasKey L = true
      ↔ ∃ v ∈ template.Versions, v.Version = L
          ∧ d.VersionBetween v.MinimumRancherVersion rancherVersion
              v.MaximumRancherVersion = true)
    ∧ (templateResource d catalogName template rancherVersion envId).VersionLinks L
        = ((template.Versions.filter (fun v =>
              d.VersionBetween v.MinimumRancherVersion rancherVersion
                v.MaximumRancherVersion && v.Version == L)).getLast?).map
            (fun v => URLEncoded d (d.ReferenceByIdLink "template"
              (generateVersionId catalogName template v))) := by
  have hv : (templateResource d catalogName template rancherVersion envId).VersionLinks
      = versionLinks d catalogName template rancherVersion := rfl
  have hl := versionLinks_lookup d catalogName template rancherVersion L
  have hs := getLast?_filter_isSome (fun v : Version =>
    d.VersionBetween v.MinimumRancherVersion rancherVersion v.MaximumRancherVersion
      && v.Version == L) template.Versions
  rw [hv]
  refine ⟨?_, hl⟩
  unfold GoMap.hasKey
  rw [hl, Option.isSome_map', hs]
  constructor
  · rintro ⟨x, hx, hq⟩
    simp only [Bool.and_eq_true, beq_iff_eq] at hq
    exact ⟨x, hx, hq.2, hq.1⟩
  · rintro ⟨x, hx, hlab, hbetween⟩
    exact ⟨x, hx, by simp [hlab, hbetween]⟩

theorem defaultTemplateVersionId_eq (catalogName : String) (template : Template) :
    defaultTemplateVersionId catalogName template
      = (((template.Versions.filter
            (fun v => decide (v.Version = template.DefaultVersion))).getLast?).map
          (fun v => generateVersionId catalogName template v)).getD "" :=
  foldl_keep_last (fun v : Version => v.Version = template.DefaultVersion)
    (fun v => generateVersionId catalogName template v) template.Versions ""

/-- C8: the `DefaultTemplateVersionId` of `templateResource` is the empty string
when no version of the template has the default version as its label, and
otherwise it is the version identifier of the last version in list order that
has that label. -/
theorem templateResource_defaultVersionId {Q : Type} (d : Deps Q) (catalogName : String)
    (template : Template) (rancherVersion envId : String) :
    ((∀ v ∈ template.Versions, v.Version ≠ template.DefaultVersion) →
        (templateResource d catalogName template rancherVersion envId).DefaultTemplateVersionId
          = "")
    ∧ ((∃ v ∈ template.Versions, v.Version = template.DefaultVersion) →
        ∃ v ∈ template.Versions, v.Version = template.DefaultVersion
          ∧ (template.Versions.filter
              (fun w => decide (w.Version = template.DefaultVersion))).getLast? = some v
          ∧ (templateResource d catalogName template rancherVersion
              envId).DefaultTemplateVersionId
              = generateVersionId catalogName template v) := by
  have hv : (templateResource d catalogName template rancherVersion
      envId).DefaultTemplateVersionId = defaultTemplateVersionId catalogName template := rfl
  have he := defaultTemplateVersionId_eq catalogName template
  have hs := getLast?_filter_isSome
    (fun v : Version => decide (v.Version = template.DefaultVersion)) template.Versions
  rw [hv, he]
  constructor
  · intro hnone
    cases hg : (template.Versions.filter
        (fun v => decide (v.Version = template.DefaultVersion))).getLast? with
    | none => rfl
    | some v =>
      obtain ⟨x, hx, hq⟩ := hs.mp (by rw [hg]; rfl)
      exact absurd (of_decide_eq_true hq) (hnone x hx)
  · rintro ⟨x, hx, hlab⟩
    have := hs.mpr ⟨x, hx, decide_eq_true hlab⟩
    obtain ⟨v, hv'⟩ := Option.isSome_iff_exists.mp this
    have hm := List.mem_of_getLast?_eq_some hv'
    rw [List.mem_filter] at hm
    exact ⟨v, hm.1, of_decide_eq_true hm.2, hv', by rw [hv']; rfl⟩

/-! ## The upgrade link map -/

theorem upgradeVersionLinks_lookup {Q : Type} (d : Deps Q) (catalogName : String)
    (template : Template) (version : Version) (rancherVersion L : String) :
    upgradeVersionLinks d catalogName template version rancherVersion L
      = ((template.Versions.filter (fun v =>
            showUpgradeVersion d version v rancherVersion && v.Version == L)).getLast?).map
          (fun v => URLEncoded d (d.ReferenceByIdLink "template"
            (generateVersionId catalogName template v))) := by
  have h := foldl_set_lookup
    (fun v : Version => showUpgradeVersion d version v rancherVersion)
    (fun v : Version => v.Version)
    (fun v : Version => URLEncoded d (d.ReferenceByIdLink "template"
      (generateVersionId catalogName template v)))
    template.Versions GoMap.empty L
  unfold upgradeVersionLinks
  rw [h]
  cases (template.Versions.filter (fun v =>
      showUpgradeVersion d version v rancherVersion && v.Version == L)).getLast? <;> rfl

theorem upgradeVersionLinks_hasKey {Q : Type} (d : Deps Q) (catalogName : String)
    (template : Template) (version : Version) (rancherVersion L : String) :
    (upgradeVersionLinks d catalogName template version rancherVersion).hasKey L = true
      ↔ ∃ v ∈ template.Versions, v.Version = L
          ∧ showUpgradeVersion d version v rancherVersion = true := by
  unfold GoMap.hasKey
  rw [upgradeVersionLinks_lookup, Option.isSome_map', getLast?_filter_isSome]
  constructor
  · rintro ⟨x, hx, hq⟩
    simp only [Bool.and_eq_true, beq_iff_eq] at hq
    exact ⟨x, hx, hq.2, hq.1⟩
  · rintro ⟨x, hx, hlab, hshow⟩
    exact ⟨x, hx, by simp [hlab, hshow]⟩

theorem showUpgradeVersion_malformed {Q : Type} (d : Deps Q) (version bad : Version)
    (rancherVersion : String) (hset : bad.UpgradeFrom ≠ "")
    (herr : (d.VersionSatisfiesRange version.Version bad.UpgradeFrom).2 ≠ none) :
    showUpgradeVersion d version bad rancherVersion = false := by
  unfold showUpgradeVersion
  rcases hr : d.VersionSatisfiesRange version.Version bad.UpgradeFrom with ⟨ok, err⟩
  rw [hr] at herr
  simp only at herr
  cases d.VersionGreaterThan bad.Version version.Version <;>
    cases d.VersionBetween bad.MinimumRancherVersion rancherVersion
      bad.MaximumRancherVersion <;>
    simp [hset, herr]

theorem generateVersionId_versions_irrelevant (catalogName : String) (template : Template)
    (versions : List Version) (version : Version) :
    generateVersionId catalogName { template with Versions := versions } version
      = generateVersionId catalogName template version := by
  rw [generateVersionId_eq, generateVersionId_eq, generateTemplateId_eq, generateTemplateId_eq]

theorem versionResource_upgradeVersionLinks {Q : Type} (d : Deps Q) (catalogName : String)
    (template : Template) (version : Version) (rancherVersion envId : String) :
    (versionResource d catalogName template version rancherVersion envId).map
        (fun res => res.UpgradeVersionLinks)
      = (questions d version).map
          (fun _ => upgradeVersionLinks d catalogName template version rancherVersion) := by
  unfold versionResource
  cases questions d version <;> rfl

/-- C4: when `versionResource` returns a resource, its upgrade link map has the
key `L` exactly when some version of the template has the label `L` and passes
`showUpgradeVersion`; `versionResource` returns a resource whenever the
descriptor of the current version parses, whatever the candidates are; and a
candidate whose upgrade-from expression makes `VersionSatisfiesRange` return an
error does not pass, and taking it out of the version list leaves the outcome
and the whole map as they are. -/
theorem versionResource_upgrade_targets {Q : Type} (d : Deps Q) (catalogName : String)
    (template : Template) (version : Version) (rancherVersion envId : String) :
    (∀ res, versionResource d catalogName template version rancherVersion envId
          = Except.ok res →
        ∀ L, res.UpgradeVersionLinks.hasKey L = true
          ↔ ∃ v ∈ template.Versions, v.Version = L
              ∧ showUpgradeVersion d version v rancherVersion = true)
    ∧ (versionResource d catalogName template version rancherVersion envId).isOk
        = (questions d version).isOk
    ∧ ∀ (before after : List Version) (bad : Version),
        bad.UpgradeFrom ≠ "" →
        (d.VersionSatisfiesRange version.Version bad.UpgradeFrom).2 ≠ none →
        showUpgradeVersion d version bad rancherVersion = false
        ∧ (versionResource d catalogName
              { template with Versions := before ++ bad :: after }
              version rancherVersion envId).map (fun res => res.UpgradeVersionLinks)
            = (versionResource d catalogName
                { template with Versions := before ++ after }
                version rancherVersion envId).map (fun res => res.UpgradeVersionLinks) := by
  refine ⟨?_, ?_, ?_⟩
  · intro res hres L
    have h := versionResource_upgradeVersionLinks d catalogName template version
      rancherVersion envId
    rw [hres] at h
    cases hq : questions d version with
    | error e => rw [hq] at h; cases h
    | ok qs =>
      rw [hq] at h
      have hmap : res.UpgradeVersionLinks
          = upgradeVersionLinks d catalogName template version rancherVersion := by
        simpa [Except.map] using h
      rw [hmap]
      exact upgradeVersionLinks_hasKey d catalogName template version rancherVersion L
  · unfold versionResource
    cases questions d version <;> rfl
  · intro before after bad hset herr
    have hbad := showUpgradeVersion_malformed d version bad rancherVersion hset herr
    refine ⟨hbad, ?_⟩
    rw [versionResource_upgradeVersionLinks, versionResource_upgradeVersionLinks]
    have hmaps : upgradeVersionLinks d catalogName
          { template with Versions := before ++ bad :: after } version rancherVersion
        = upgradeVersionLinks d catalogName
          { template with Versions := before ++ after } version rancherVersion := by
      funext L
      rw [upgradeVersionLinks_lookup, upgradeVersionLinks_lookup]
      simp only [List.filter_append, List.filter_cons, hbad, Bool.false_and,
        generateVersionId_versions_irrelevant]
      rfl
    rw [hmaps]

/-- Sample input of C4: the candidate `1.5.0` with the upgrade-from expression
`malformed`, between the candidates `1.0.0` and `2.0.0`, seen from the current
version `1.0.0` at platform version `1.2`. -/
theorem versionResource_upgrade_targets_witness :
    (sampleVersion "1.5.0" none "1.0" "2.0" "malformed").UpgradeFrom ≠ ""
    ∧ (sampleDeps.VersionSatisfiesRange (sampleVersion "1.0.0" none "1.0" "" "").Version
        (sampleVersion "1.5.0" none "1.0" "2.0" "malformed").UpgradeFrom).2 ≠ none
    ∧ showUpgradeVersion sampleDeps (sampleVersion "1.0.0" none "1.0" "" "")
        (sampleVersion "1.5.0" none "1.0" "2.0" "malformed") "1.2" = false
    ∧ (versionResource sampleDeps "community"
          { sampleTemplate "" "mysql" "" [] with
            Versions := [sampleVersion "1.0.0" none "1.0" "" ""]
              ++ sampleVersion "1.5.0" none "1.0" "2.0" "malformed"
                :: [sampleVersion "2.0.0" none "1.0" "" ""] }
          (sampleVersion "1.0.0" none "1.0" "" "") "1.2" "1a5").map
          (fun res => res.UpgradeVersionLinks)
        = (versionResource sampleDeps "community"
            { sampleTemplate "" "mysql" "" [] with
              Versions := [sampleVersion "1.0.0" none "1.0" "" ""]
                ++ [sampleVersion "2.0.0" none "1.0" "" ""] }
            (sampleVersion "1.0.0" none "1.0" "" "") "1.2" "1a5").map
            (fun res => res.UpgradeVersionLinks) :=
  ⟨by decide, by decide,
   (versionResource_upgrade_targets sampleDeps "community" (sampleTemplate "" "mysql" "" [])
      (sampleVersion "1.0.0" none "1.0" "" "") "1.2" "1a5").2.2
      [sampleVersion "1.0.0" none "1.0" "" ""] [sampleVersion "2.0.0" none "1.0" "" ""]
      (sampleVersion "1.5.0" none "1.0" "2.0" "malformed") (by decide) (by decide)⟩

/-! ## Catalog lookup -/

theorem foldl_first_none (rows : List CatalogModel) : ∀ best : Option CatalogModel,
    rows.foldl
        (fun best row =>
          match best with
          | none => some row
          | some b => if row.Base.ID < b.Base.ID then some row else some b)
        best = none
      ↔ best = none ∧ rows = [] := by
  induction rows with
  | nil => intro best; simp
  | cons r rows ih =>
    intro best
    rw [List.foldl_cons, ih]
    cases best with
    | none => simp
    | some b => by_cases h : r.Base.ID < b.Base.ID <;> simp [h]

theorem foldl_first_some (rows : List CatalogModel) :
    ∀ (best : Option CatalogModel) (r : CatalogModel),
    rows.foldl
        (fun best row =>
          match best with
          | none => some row
          | some b => if row.Base.ID < b.Base.ID then some row else some b)
        best = some r →
      (best = some r ∨ r ∈ rows)
        ∧ (∀ b, best = some b → r.Base.ID ≤ b.Base.ID)
        ∧ ∀ other ∈ rows, r.Base.ID ≤ other.Base.ID := by
  induction rows with
  | nil =>
    intro best r h
    simp only [List.foldl_nil] at h
    subst h
    simp
  | cons x rows ih =>
    intro best r h
    rw [List.foldl_cons] at h
    obtain ⟨h1, h2, h3⟩ := ih _ r h
    cases best with
    | none =>
      simp only at h1 h2
      refine ⟨Or.inr ?_, by simp, ?_⟩
      · rcases h1 with h1 | h1
        · simp only [Option.some.injEq] at h1
          rw [h1]
          exact List.mem_cons_self _ _
        · exact List.mem_cons_of_mem _ h1
      · intro other ho
        rcases List.mem_cons.mp ho with e | ho
        · rw [e]
          exact h2 x rfl
        · exact h3 other ho
    | some b =>
      by_cases hlt : x.Base.ID < b.Base.ID
      · simp only [hlt, if_true] at h1 h2
        have hx := h2 x rfl
        refine ⟨Or.inr ?_, ?_, ?_⟩
        · rcases h1 with h1 | h1
          · simp only [Option.some.injEq] at h1
            rw [h1]
            exact List.mem_cons_self _ _
          · exact List.mem_cons_of_mem _ h1
        · intro b' hb'
          simp only [Option.some.injEq] at hb'
          rw [← hb']
          omega
        · intro other ho
          rcases List.mem_cons.mp ho with e | ho
          · rw [e]
            exact hx
          · exact h3 other ho
      · simp only [hlt, if_false] at h1 h2
        have hb := h2 b rfl
        refine ⟨?_, ?_, ?_⟩
        · rcases h1 with h1 | h1
          · exact Or.inl h1
          · exact Or.inr (List.mem_cons_of_mem _ h1)
        · intro b' hb'
          simp only [Option.some.injEq] at hb'
          rw [← hb']
          exact hb
        · intro other ho
          rcases List.mem_cons.mp ho with e | ho
          · rw [e]
            omega
          · exact h3 other ho

theorem First_eq_none (rows : List CatalogModel) : First rows = none ↔ rows = [] := by
  unfold First
  rw [foldl_first_none]
  simp

theorem First_eq_some (rows : List CatalogModel) (r : CatalogModel) (h : First rows = some r) :
    r ∈ rows ∧ ∀ other ∈ rows, r.Base.ID ≤ other.Base.ID := by
  unfold First at h
  obtain ⟨h1, _, h3⟩ := foldl_first_some rows none r h
  rcases h1 with h1 | h1
  · cases h1
  · exact ⟨h1, h3⟩

theorem mem_lookupCatalog_rows (db : DB) (environmentId name : String) (hname : name ≠ "")
    (row : CatalogModel) :
    row ∈ (db.catalog.filter (whereCatalogName name)).filter
        (whereEnvironmentId environmentId "global")
      ↔ row ∈ db.catalog ∧ catalogCandidate environmentId name row := by
  simp only [List.mem_filter, whereCatalogName, whereEnvironmentId, catalogCandidate,
    Bool.or_eq_true, beq_iff_eq, hname, false_or]
  tauto

/-- C9, as the code has it: for a name that is not empty, `LookupCatalog`
returns nothing exactly when no stored catalog has the name under the tenant
scope or under `"global"`, and otherwise it returns such a catalog, the one of
the row with the least identifier among them; which of a tenant-scoped and a
global catalog of one name is returned is thus decided by their row
identifiers. -/
theorem LookupCatalog_least_id (db : DB) (environmentId name : String)
    (hname : name ≠ "") :
    (LookupCatalog db environmentId name = none
      ↔ ∀ row ∈ db.catalog, ¬ catalogCandidate environmentId name row)
    ∧ ∀ c, LookupCatalog db environmentId name = some c →
        ∃ row ∈ db.catalog, row.Catalog = c ∧ catalogCandidate environmentId name row
          ∧ ∀ other ∈ db.catalog, catalogCandidate environmentId name other →
              row.Base.ID ≤ other.Base.ID := by
  unfold LookupCatalog
  constructor
  · cases hf : First ((db.catalog.filter (whereCatalogName name)).filter
        (whereEnvironmentId environmentId "global")) with
    | none =>
      rw [First_eq_none] at hf
      simp only [true_iff]
      intro row hrow hcand
      have := (mem_lookupCatalog_rows db environmentId name hname row).mpr ⟨hrow, hcand⟩
      rw [hf] at this
      simp at this
    | some r =>
      obtain ⟨hm, _⟩ := First_eq_some _ r hf
      rw [mem_lookupCatalog_rows db environmentId name hname] at hm
      constructor
      · intro h
        cases h
      · intro h
        exact absurd hm.2 (h r hm.1)
  · intro c hc
    cases hf : First ((db.catalog.filter (whereCatalogName name)).filter
        (whereEnvironmentId environmentId "global")) with
    | none => rw [hf] at hc; cases hc
    | some r =>
      rw [hf] at hc
      simp only [Option.some.injEq] at hc
      obtain ⟨hm, hmin⟩ := First_eq_some _ r hf
      rw [mem_lookupCatalog_rows db environmentId name hname] at hm
      refine ⟨r, hm.1, hc, hm.2, ?_⟩
      intro other ho hcand
      exact hmin other ((mem_lookupCatalog_rows db environmentId name hname other).mpr
        ⟨ho, hcand⟩)

/-- Sample input of C9: the lookup of `community` for `tenant-B` in the sample
catalogs. -/
theorem LookupCatalog_least_id_witness :
    "community" ≠ ""
    ∧ ((LookupCatalog sampleCatalogs "tenant-B" "community" = none
        ↔ ∀ row ∈ sampleCatalogs.catalog, ¬ catalogCandidate "tenant-B" "community" row)
      ∧ ∀ c, LookupCatalog sampleCatalogs "tenant-B" "community" = some c →
          ∃ row ∈ sampleCatalogs.catalog, row.Catalog = c
            ∧ catalogCandidate "tenant-B" "community" row
            ∧ ∀ other ∈ sampleCatalogs.catalog, catalogCandidate "tenant-B" "community" other →
                row.Base.ID ≤ other.Base.ID) :=
  ⟨by decide, LookupCatalog_least_id sampleCatalogs "tenant-B" "community" (by decide)⟩

/-- C9 fails as stated: a global and a tenant-scoped catalog named `community`
are both stored, the global one in the row with the lower identifier, and the
lookup for `tenant-A` returns the global catalog. -/
theorem LookupCatalog_returns_global_over_tenant :
    (∃ row ∈ sampleCatalogs.catalog,
        row.Catalog.Name = "community" ∧ row.Catalog.EnvironmentId = "tenant-A")
    ∧ LookupCatalog sampleCatalogs "tenant-A" "community"
        = some (sampleCatalog "global" "community" "https://shared")
    ∧ (sampleCatalog "global" "community" "https://shared").EnvironmentId ≠ "tenant-A" := by
  refine ⟨?_, by decide, by decide⟩
  exact ⟨{ Base := { ID := 2 }, Catalog := sampleCatalog "tenant-A" "community" "https://own" },
    by decide, by decide, by decide⟩

/-! ## Template listing: the query text and its arguments -/

theorem foldl_append_singleton {α : Type} (xs : List α) : ∀ init : List α,
    xs.foldl (fun acc x => acc ++ [x]) init = init ++ xs := by
  induction xs with
  | nil => intro init; simp
  | cons x xs ih => intro init; simp [ih]

theorem lookupTemplatesParams_eq (environmentId catalog : String)
    (categories categoriesNe : List String) :
    lookupTemplatesParams environmentId catalog categories categoriesNe
      = environmentId :: "global" ::
          ((if catalog = "" then [] else [catalog]) ++ (categories ++ categoriesNe)) := by
  unfold lookupTemplatesParams
  simp only [foldl_append_singleton]
  by_cases h : catalog = "" <;> simp [h]

theorem Sprintf_brackets (a : String) :
    Sprintf "(%s)" [FmtArg.str a] = "(" ++ a ++ ")" := by
  apply String.ext
  simp [Sprintf, sprintfAux, fmtVerb, String.singleton]

theorem listQuery_loop_succ (size : Nat) :
    (List.range (size + 1)).foldl (fun query _ => query ++ " ? ,") ""
      = (List.range size).foldl (fun query _ => query ++ " ? ,") "" ++ " ? ," := by
  rw [List.range_succ, List.foldl_append]
  rfl

theorem TrimSuffix_comma (q : String) : TrimSuffix (q ++ " ? ,") "," = q ++ " ? " := by
  unfold TrimSuffix
  have hsuf : (",".toList.isSuffixOf (q ++ " ? ,").toList) = true := by
    rw [List.isSuffixOf_iff_suffix]
    exact ⟨q.toList ++ [' ', '?', ' '], by simp [String.toList]⟩
  rw [if_pos hsuf]
  apply String.ext
  have hlen : (q ++ " ? ,").toList.length - ",".toList.length
      = (q.toList ++ [' ', '?', ' ']).length := by
    simp [String.toList]
  have hlist : (q ++ " ? ,").toList = (q.toList ++ [' ', '?', ' ']) ++ [','] := by
    simp [String.toList]
  rw [hlen, hlist, List.take_left']
  · simp [String.toList]
  · rfl

/-- Reading the text of the loop of `listQuery` inside an open bracket adds one
item for each round of the loop. -/
theorem scanInList_loop (size : Nat) : ∀ (cs : List Char) (n : Nat) (outer : List Nat),
    scanInList
        (((List.range size).foldl (fun query _ => query ++ " ? ,") "").toList ++ cs)
        (n :: outer)
      = scanInList cs ((n + size) :: outer) := by
  induction size with
  | zero =>
    intro cs n outer
    rfl
  | succ k ih =>
    intro cs n outer
    rw [listQuery_loop_succ]
    have hl : ((List.range k).foldl (fun query _ => query ++ " ? ,") "" ++ " ? ,").toList ++ cs
        = ((List.range k).foldl (fun query _ => query ++ " ? ,") "").toList
            ++ (' ' :: '?' :: ' ' :: ',' :: cs) := by
      simp [String.toList]
    rw [hl, ih]
    simp [scanInList, Nat.add_assoc]

theorem listQuery_succ_toList (size : Nat) :
    (listQuery (size + 1)).toList
      = '(' :: (((List.range size).foldl (fun query _ => query ++ " ? ,") "").toList
          ++ [' ', '?', ' ', ')']) := by
  unfold listQuery
  simp only [listQuery_loop_succ, TrimSuffix_comma, Sprintf_brackets]
  simp [String.toList]

/-- The operand that `LookupTemplates` writes for a list of `size` categories
is read as a list of one item when `size` is one; for two or more categories
the inner brackets hold a row value and the database rejects the text. -/
theorem inListSize_operand (size : Nat) :
    inListSize (Sprintf "(%s)" [FmtArg.str (listQuery (size + 1))])
      = if size = 0 then some 1 else none := by
  unfold inListSize
  rw [Sprintf_brackets]
  have hl : ("(" ++ listQuery (size + 1) ++ ")").toList
      = '(' :: '(' :: (((List.range size).foldl (fun query _ => query ++ " ? ,") "").toList
          ++ [' ', '?', ' ', ')', ')']) := by
    have h := listQuery_succ_toList size
    simp only [String.toList] at h ⊢
    simp [h]
  rw [hl]
  have hscan := scanInList_loop size [' ', '?', ' ', ')', ')'] 0 [0]
  simp only [scanInList, Char.reduceEq, or_self, or_false, or_true, if_true, if_false,
    false_or] at hscan ⊢
  rw [hscan]
  by_cases h0 : size = 0
  · subst h0
    simp [scanInList]
  · have h1 : ¬ (0 + size + 1 = 1) := by omega
    simp [scanInList, h0, h1]

/-- The query of `LookupTemplates` for at most one category to include and at
most one to exclude binds to its arguments, and the test it makes on a joined
row is the conjunction of the scope condition, the three join conditions and
the conditions of the filters that are given. -/
theorem bindQuery_lookupTemplates (environmentId catalog : String)
    (categories categoriesNe : List String)
    (hin : categories.length ≤ 1) (hout : categoriesNe.length ≤ 1) :
    ∃ test, bindQuery (lookupTemplatesQuery catalog categories categoriesNe)
        (lookupTemplatesParams environmentId catalog categories categoriesNe) = some test
      ∧ ∀ r : JoinedRow, test r = true ↔
          (r.template.Template.EnvironmentId = environmentId
            ∨ r.template.Template.EnvironmentId = "global")
          ∧ r.template.Base.ID = r.link.TemplateId
          ∧ r.category.Base.ID = r.link.CategoryId
          ∧ r.template.Template.CatalogId = r.catalog.Base.ID
          ∧ (catalog = "" ∨ r.catalog.Catalog.Name = catalog)
          ∧ (categories = [] ∨ r.category.Name ∈ categories)
          ∧ (categoriesNe = [] ∨ r.category.Name ∉ categoriesNe) := by
  rw [lookupTemplatesParams_eq]
  unfold lookupTemplatesQuery
  have hcases : ∀ l : List String, l.length ≤ 1 → l = [] ∨ ∃ a, l = [a] := by
    intro l hl
    match l, hl with
    | [], _ => exact Or.inl rfl
    | [a], _ => exact Or.inr ⟨a, rfl⟩
    | _ :: _ :: _, h => simp at h
  rcases hcases categories hin with rfl | ⟨a, rfl⟩ <;>
    rcases hcases categoriesNe hout with rfl | ⟨b, rfl⟩ <;>
    by_cases hc : catalog = ""
  all_goals
    simp [bindQuery, bindCondition, inListSize_operand, hc]

/-- The query of `LookupTemplates` for two or more categories to include, or
two or more to exclude, is rejected. -/
theorem bindQuery_lookupTemplates_rejected (environmentId catalog : String)
    (categories categoriesNe : List String)
    (h : 2 ≤ categories.length ∨ 2 ≤ categoriesNe.length) :
    bindQuery (lookupTemplatesQuery catalog categories categoriesNe)
        (lookupTemplatesParams environmentId catalog categories categoriesNe) = none := by
  rw [lookupTemplatesParams_eq]
  unfold lookupTemplatesQuery
  by_cases hc : catalog = "" <;>
    rcases categories with _ | ⟨a, _ | ⟨a2, as⟩⟩ <;>
    rcases categoriesNe with _ | ⟨b, _ | ⟨b2, bs⟩⟩
  all_goals
    first
    | (simp at h; done)
    | simp [bindQuery, bindCondition, inListSize_operand, hc]

/-! ## Template listing: the rows found -/

theorem mem_joinedRows (db : DB) (r : JoinedRow) :
    r ∈ joinedRows db
      ↔ r.template ∈ db.catalog_template ∧ r.link ∈ db.catalog_template_category
        ∧ r.category ∈ db.catalog_category ∧ r.catalog ∈ db.catalog := by
  unfold joinedRows
  simp only [List.mem_flatMap, List.mem_map]
  constructor
  · rintro ⟨t, ht, l, hl, g, hg, c, hc, rfl⟩
    exact ⟨ht, hl, hg, hc⟩
  · rintro ⟨ht, hl, hg, hc⟩
    exact ⟨r.template, ht, r.link, hl, r.category, hg, r.catalog, hc, rfl⟩

theorem mem_tagsOf (db : DB) (row : TemplateModel) (tag : String) :
    tag ∈ tagsOf db row
      ↔ ∃ l ∈ db.catalog_template_category, ∃ g ∈ db.catalog_category,
          row.Base.ID = l.TemplateId ∧ g.Base.ID = l.CategoryId ∧ g.Name = tag := by
  unfold tagsOf
  simp only [List.mem_flatMap]
  constructor
  · rintro ⟨l, hl, h⟩
    by_cases hid : row.Base.ID = l.TemplateId
    · simp only [hid, if_true, List.mem_map, List.mem_filter, beq_iff_eq] at h
      obtain ⟨g, ⟨hg, hgl⟩, hname⟩ := h
      exact ⟨l, hl, g, hg, hid, hgl, hname⟩
    · simp [hid] at h
  · rintro ⟨l, hl, g, hg, hid, hgl, hname⟩
    refine ⟨l, hl, ?_⟩
    simp only [hid, if_true, List.mem_map, List.mem_filter, beq_iff_eq]
    exact ⟨g, ⟨hg, hgl⟩, hname⟩

theorem foldl_append_map {α β : Type} (f : α → β) (xs : List α) : ∀ init : List β,
    xs.foldl (fun acc x => acc ++ [f x]) init = init ++ xs.map f := by
  induction xs with
  | nil => intro init; simp
  | cons x xs ih => intro init; simp [ih]

/-- What `LookupTemplates` returns, exactly: nothing when two or more
categories are to be included or two or more excluded, and otherwise the loaded
rows of the stored templates in scope whose catalog is stored and has the name
asked for, once for each of their tags that passes both category conditions. -/
theorem mem_LookupTemplates (m : ModelDeps) (db : DB) (environmentId catalog : String)
    (categories categoriesNe : List String) (t : Template) :
    t ∈ LookupTemplates m db environmentId catalog categories categoriesNe
      ↔ categories.length ≤ 1 ∧ categoriesNe.length ≤ 1
        ∧ ∃ row ∈ db.catalog_template, loadTemplate m db row = t
          ∧ templateInScope environmentId row
          ∧ templateInCatalogNamed db catalog row
          ∧ ∃ tag ∈ tagsOf db row,
              (categories = [] ∨ tag ∈ categories)
                ∧ (categoriesNe = [] ∨ tag ∉ categoriesNe) := by
  by_cases hlen : categories.length ≤ 1 ∧ categoriesNe.length ≤ 1
  · obtain ⟨test, hbind, htest⟩ :=
      bindQuery_lookupTemplates environmentId catalog categories categoriesNe hlen.1 hlen.2
    unfold LookupTemplates rawFind
    simp only [hbind, foldl_append_map, List.nil_append, List.mem_map, List.mem_filter,
      mem_joinedRows, htest, hlen, true_and]
    unfold templateInScope templateInCatalogNamed
    constructor
    · rintro ⟨row, ⟨r, ⟨⟨ht, hl, hg, hc⟩, hscope, h1, h2, h3, hname, hin, hout⟩, rfl⟩, rfl⟩
      refine ⟨r.template, ht, rfl, hscope, ⟨r.catalog, hc, h3, hname⟩, r.category.Name, ?_,
        hin, hout⟩
      exact (mem_tagsOf db r.template r.category.Name).mpr
        ⟨r.link, hl, r.category, hg, h1, h2, rfl⟩
    · rintro ⟨row, hrow, rfl, hscope, ⟨c, hc, h3, hname⟩, tag, htag, hin, hout⟩
      obtain ⟨l, hl, g, hg, h1, h2, rfl⟩ := (mem_tagsOf db row tag).mp htag
      exact ⟨row, ⟨{ template := row, link := l, category := g, catalog := c },
        ⟨⟨hrow, hl, hg, hc⟩, hscope, h1, h2, h3, hname, hin, hout⟩, rfl⟩, rfl⟩
  · have hrej : 2 ≤ categories.length ∨ 2 ≤ categoriesNe.length := by omega
    have hbind := bindQuery_lookupTemplates_rejected environmentId catalog categories
      categoriesNe hrej
    constructor
    · intro ht
      unfold LookupTemplates rawFind at ht
      simp [hbind] at ht
    · rintro ⟨h1, h2, _⟩
      exact absurd ⟨h1, h2⟩ hlen

/-- C10, as the code has it: every template that `LookupTemplates` returns is
the loaded row of a stored template whose own scope is the tenant scope or
`"global"`, whose catalog is stored and has the catalog name when one is asked
for, that has at least one tag, that has a tag in `categories` when that list
is not empty, and that has a tag outside `categoriesNe` when that list is not
empty; and when at most one category is to be included and at most one to be
excluded, every such stored template none of whose tags is in `categoriesNe`
is returned. -/
theorem LookupTemplates_filtering (m : ModelDeps) (db : DB) (environmentId catalog : String)
    (categories categoriesNe : List String) :
    (∀ t ∈ LookupTemplates m db environmentId catalog categories categoriesNe,
        ∃ row ∈ db.catalog_template, loadTemplate m db row = t
          ∧ templateInScope environmentId row
          ∧ templateInCatalogNamed db catalog row
          ∧ tagsOf db row ≠ []
          ∧ (categories = [] ∨ ∃ tag ∈ tagsOf db row, tag ∈ categories)
          ∧ (categoriesNe = [] ∨ ∃ tag ∈ tagsOf db row, tag ∉ categoriesNe))
    ∧ (categories.length ≤ 1 → categoriesNe.length ≤ 1 →
        ∀ row ∈ db.catalog_template,
          templateInScope environmentId row →
          templateInCatalogNamed db catalog row →
          tagsOf db row ≠ [] →
          (categories = [] ∨ ∃ tag ∈ tagsOf db row, tag ∈ categories) →
          (∀ tag ∈ tagsOf db row, tag ∉ categoriesNe) →
          loadTemplate m db row
            ∈ LookupTemplates m db environmentId catalog categories categoriesNe) := by
  constructor
  · intro t ht
    obtain ⟨_, _, row, hrow, hload, hscope, hcat, tag, htag, hin, hout⟩ :=
      (mem_LookupTemplates m db environmentId catalog categories categoriesNe t).mp ht
    refine ⟨row, hrow, hload, hscope, hcat, List.ne_nil_of_mem htag, ?_, ?_⟩
    · exact hin.imp id (fun h => ⟨tag, htag, h⟩)
    · exact hout.imp id (fun h => ⟨tag, htag, h⟩)
  · intro hlin hlout row hrow hscope hcat htags hin hout
    rw [mem_LookupTemplates]
    refine ⟨hlin, hlout, row, hrow, rfl, hscope, hcat, ?_⟩
    rcases hin with hin | ⟨tag, htag, hmem⟩
    · obtain ⟨tag, htag⟩ := List.exists_mem_of_ne_nil _ htags
      exact ⟨tag, htag, Or.inl hin, Or.inr (hout tag htag)⟩
    · exact ⟨tag, htag, Or.inr hmem, Or.inr (hout tag htag)⟩

/-- Sample input of C10: the stored template `mysql`, tagged `database` and
`deprecated`, listed for `tenant-A` with `database` to include and `networking`
to exclude. -/
theorem LookupTemplates_filtering_witness :
    ["database"].length ≤ 1 ∧ ["networking"].length ≤ 1
    ∧ sampleTemplateRow 1 "global" 1 "mysql" ∈ sampleRegistry.catalog_template
    ∧ tagsOf sampleRegistry (sampleTemplateRow 1 "global" 1 "mysql")
        = ["database", "deprecated"]
    ∧ loadTemplate sampleModelDeps sampleRegistry (sampleTemplateRow 1 "global" 1 "mysql")
        ∈ LookupTemplates sampleModelDeps sampleRegistry "tenant-A" "library"
            ["database"] ["networking"] :=
  ⟨by decide, by decide, by decide, by decide,
   (LookupTemplates_filtering sampleModelDeps sampleRegistry "tenant-A" "library"
      ["database"] ["networking"]).2 (by decide) (by decide)
      (sampleTemplateRow 1 "global" 1 "mysql") (by decide) (Or.inr (by decide))
      ⟨{ Base := { ID := 1 }, Catalog := sampleCatalog "global" "library" "https://shared" },
        by decide, by decide, Or.inr (by decide)⟩
      (by decide) (Or.inr ⟨"database", by decide, by decide⟩) (by decide)⟩

/-- C10 fails as stated, three times. With both filters empty the stored
template `plain`, in scope and in a stored catalog but without tags, is not
among the templates returned. With `database` to include and `deprecated` to
exclude the template `mysql`, tagged with both, is returned. With nothing to
include and `networking` and `orchestration` to exclude, neither of them a tag
of `mysql`, nothing is returned. -/
theorem LookupTemplates_untagged_and_excluded :
    (sampleTemplateRow 2 "global" 1 "plain" ∈ sampleRegistry.catalog_template
      ∧ templateInScope "tenant-A" (sampleTemplateRow 2 "global" 1 "plain")
      ∧ tagsOf sampleRegistry (sampleTemplateRow 2 "global" 1 "plain") = []
      ∧ (LookupTemplates sampleModelDeps sampleRegistry "tenant-A" "" [] []).map
          (fun t => t.Name) = ["mysql", "mysql"])
    ∧ (tagsOf sampleRegistry (sampleTemplateRow 1 "global" 1 "mysql")
          = ["database", "deprecated"]
      ∧ (LookupTemplates sampleModelDeps sampleRegistry "tenant-A" ""
          ["database"] ["deprecated"]).map (fun t => t.Name) = ["mysql"])
    ∧ (sampleTemplateRow 1 "global" 1 "mysql" ∈ sampleRegistry.catalog_template
      ∧ templateInScope "tenant-A" (sampleTemplateRow 1 "global" 1 "mysql")
      ∧ (∀ tag ∈ tagsOf sampleRegistry (sampleTemplateRow 1 "global" 1 "mysql"),
          tag ∉ ["networking", "orchestration"])
      ∧ (LookupTemplates sampleModelDeps sampleRegistry "tenant-A" ""
          [] ["networking", "orchestration"]).map (fun t => t.Name) = []) := by
  refine ⟨⟨?_, ?_, ?_, ?_⟩, ⟨?_, ?_⟩, ?_, ?_, ?_, ?_⟩
  · decide
  · exact Or.inr (by decide)
  · decide
  · decide
  · decide
  · decide
  · decide
  · exact Or.inr (by decide)
  · decide
  · decide

end CatalogService
